import Mathlib

/-
Verification of the llmstreamer SSE stream decoder.

The Go sources `openai/openai.go` and `anthropic/anthropic.go` each contain a
`StreamChat` entry point and a `processStream` loop that reads an HTTP
response body line by line (`bufio.Reader.ReadBytes('\n')`), trims each line,
extracts `data: ` payloads, unmarshals them into a provider event and drives
three caller-supplied callbacks (`OnContent`, `OnFinish`, `OnError`).

Embedding choices:
  * The response body is a finite character list `Body.chars` followed either
    by end-of-input (`readErr = false`, Go `io.EOF`) or by a genuine read
    failure (`readErr = true`).
  * `bufio.Reader.ReadBytes('\n')` is embedded by the char-by-char loop
    `streamLoop`, which buffers a partial line in `buf`; when the source is
    exhausted before a newline the buffered bytes are discarded, exactly as
    the Go loop ignores the `line` value in its `err != nil` branch.
  * `json.Unmarshal` is an oracle parameter `um : String → Option StreamEvent`
    (`none` models a deserialization error); the control flow around it is
    taken verbatim from the source.
  * The caller's `*llmstreamer.StreamCallbacks` is `Option StreamCallbacks`
    where each slot is a presence flag.  Invoking an absent slot without a nil
    check models Go's nil-function-call panic: `rawEmit` sets the `panicked`
    bit and execution stops, as an unrecovered Go panic would.
  * Callback invocations are recorded in order in a `Trace`.
-/

/-- Model of Go `unicode.IsSpace` restricted to the Latin-1 range (the space
characters of `bytes.TrimSpace` that can occur in a single byte); wider
Unicode space classes are irrelevant to the properties proved here. -/
def isSpace (c : Char) : Bool :=
  c = ' ' || c = '\t' || c = '\n' || c = '\u000B' || c = '\u000C' || c = '\r' ||
  c = '\u0085' || c = '\u00A0'

/-- Model of Go `bytes.TrimSpace`: drop whitespace from both ends of a line. -/
def trimSpace (s : List Char) : List Char :=
  ((s.dropWhile isSpace).reverse.dropWhile isSpace).reverse

/-- Model of `llmstreamer.StreamCallbacks` (streamer.go): each field records
whether the caller supplied that function slot. -/
structure StreamCallbacks where
  onContent : Bool
  onFinish : Bool
  onError : Bool
  deriving DecidableEq, Repr

/-- Presence of the `OnContent` slot through the possibly-nil callback struct
pointer (`cb != nil && cb.OnContent != nil`). -/
def hasOnContent : Option StreamCallbacks → Bool
  | none => false
  | some c => c.onContent

/-- Presence of the `OnFinish` slot (`cb != nil && cb.OnFinish != nil`). -/
def hasOnFinish : Option StreamCallbacks → Bool
  | none => false
  | some c => c.onFinish

/-- Presence of the `OnError` slot (`cb != nil && cb.OnError != nil`). -/
def hasOnError : Option StreamCallbacks → Bool
  | none => false
  | some c => c.onError

/-- The distinguishable error values the two Go files construct with
`errors.New` / `fmt.Errorf`, tagged by construction site and carrying the
data that the Go code embeds into the message text. -/
inductive Err where
  | invalidApiKey
  | transportFailed
  | non200ReadBodyFailed (status : Nat)
  | non200Body (status : Nat) (body : String)
  | readFailed
  | parseFailed
  deriving DecidableEq, Repr

/-- One observable callback invocation. -/
inductive CbEvent where
  | content (s : String)
  | finish (s : String)
  | error (e : Err)
  deriving DecidableEq, Repr

/-- The observable outcome of one stream: the ordered callback invocations,
and whether execution ended in a panic (a nil callback slot was invoked). -/
structure Trace where
  events : List CbEvent
  panicked : Bool
  deriving DecidableEq, Repr

/-- An unguarded Go callback invocation `cb.OnX(v)`: if the slot is present
the event is recorded, otherwise the nil function call panics. -/
def rawEmit (present : Bool) (e : CbEvent) : Trace :=
  if present then ⟨[e], false⟩ else ⟨[], true⟩

/-- The HTTP response body as seen by the decoder: the characters it yields,
then either clean end-of-input (`readErr = false`) or a read error. -/
structure Body where
  chars : List Char
  readErr : Bool
  deriving DecidableEq, Repr

/-- Outcome of `client.Do(req)`: either a transport-level error, or a
response with a status code and a body. -/
structure HttpResult where
  transportErr : Bool
  status : Nat
  body : Body
  deriving DecidableEq, Repr

/-- Result of processing one complete line inside the read loop: either the
loop continues with a new accumulator after emitting some events, or the
function returns (or panics) after emitting some events. -/
inductive LineStep where
  | next (acc : String) (evs : List CbEvent)
  | halt (evs : List CbEvent) (panicked : Bool)
  deriving DecidableEq, Repr

/-- The SSE line marker `"data: "` as a character list. -/
def dataHeader : List Char := "data: ".data

/-- Encode a list of newline-terminated lines followed by arbitrary trailing
bytes into the raw byte stream fed to the decoder. -/
def encodeSSE : List String → List Char → List Char
  | [], t => t
  | l :: ls, t => l.data ++ '\n' :: encodeSSE ls t

/-- A payload that survives the decoder's line handling intact: it contains
no newline, and trimming the full `data: ` line only removes the trailing
newline. -/
def cleanPayload (p : String) : Prop :=
  '\n' ∉ p.data ∧ trimSpace (("data: " ++ p).data ++ ['\n']) = ("data: " ++ p).data

instance (p : String) : Decidable (cleanPayload p) := by
  unfold cleanPayload; infer_instance

namespace OpenAI

/-- Model of `openai.Delta` (models.go). -/
structure Delta where
  role : String := ""
  content : String := ""
  deriving DecidableEq, Repr

/-- Model of `openai.Choice` (models.go); the untyped `logprobs`
`interface{}` field is never read by the decoder and is omitted. -/
structure Choice where
  index : Int := 0
  delta : Delta := {}
  finishReason : Option String := none
  deriving DecidableEq, Repr

/-- Model of `openai.StreamEvent` (models.go). -/
structure StreamEvent where
  id : String := ""
  object : String := ""
  created : Int := 0
  model : String := ""
  serviceTier : String := ""
  systemFingerprint : String := ""
  choices : List Choice := []
  obfuscation : String := ""
  deriving DecidableEq, Repr

/-- Handling of one extracted `data: ` payload in the openai loop (openai.go
lines 137-158): the `[DONE]` sentinel is recognized by byte equality before
any JSON parsing; otherwise the payload is unmarshalled and the first
choice's non-empty delta content is delivered.  The accumulator update
`finalMessage += content` happens before the nil check on `OnContent`. -/
def handleData (um : String → Option StreamEvent) (cb : Option StreamCallbacks)
    (acc : String) (d : List Char) : LineStep :=
  if d = "[DONE]".data then
    if hasOnFinish cb then .halt [.finish acc] false else .halt [] true
  else
    match um (String.mk d) with
    | none =>
      if hasOnError cb then .next acc [.error .parseFailed] else .halt [] true
    | some ev =>
      match ev.choices with
      | [] => .next acc []
      | c :: _ =>
        if c.delta.content = "" then .next acc []
        else if hasOnContent cb then
          .next (acc ++ c.delta.content) [.content c.delta.content]
        else .next (acc ++ c.delta.content) []

/-- The per-line body of the openai `processStream` loop (openai.go lines
131-160): trim, skip empty lines, require the `data: ` marker, then process
the payload after the marker. -/
def handleLine (um : String → Option StreamEvent) (cb : Option StreamCallbacks)
    (acc : String) (line : List Char) : LineStep :=
  let l := trimSpace line
  if l.isEmpty then .next acc []
  else if dataHeader.isPrefixOf l then
    handleData um cb acc (l.drop dataHeader.length)
  else .next acc []

/-- The openai `processStream` read loop (openai.go lines 117-161):
`ReadBytes('\n')` is modelled char by char with `buf` holding the partial
line; at source exhaustion the `err != nil` branch runs — `OnFinish` on
end-of-input, `OnError` on a read failure — and the buffered partial line is
discarded. -/
def streamLoop (um : String → Option StreamEvent) (cb : Option StreamCallbacks)
    (acc : String) (buf : List Char) : List Char → Bool → Trace
  | [], re =>
    if re then rawEmit (hasOnError cb) (.error .readFailed)
    else rawEmit (hasOnFinish cb) (.finish acc)
  | c :: rest, re =>
    if c = '\n' then
      match handleLine um cb acc (buf ++ ['\n']) with
      | .next acc2 evs =>
        let tr := streamLoop um cb acc2 [] rest re
        ⟨evs ++ tr.events, tr.panicked⟩
      | .halt evs p => ⟨evs, p⟩
    else streamLoop um cb acc (buf ++ [c]) rest re

/-- Model of `openai.processStream` (openai.go lines 106-162): a non-200
status reads the whole body into a single unguarded `OnError` (a distinct
error when that read itself fails); otherwise the line loop runs with an
empty accumulator. -/
def processStream (um : String → Option StreamEvent) (cb : Option StreamCallbacks)
    (status : Nat) (body : Body) : Trace :=
  if status ≠ 200 then
    if body.readErr then rawEmit (hasOnError cb) (.error (.non200ReadBodyFailed status))
    else rawEmit (hasOnError cb) (.error (.non200Body status (String.mk body.chars)))
  else streamLoop um cb "" [] body.chars body.readErr

/-- Model of `openai.StreamChat` plus `streamOpenAI` (openai.go lines 30-81):
empty key is rejected with a guarded `OnError` before any network activity;
otherwise the request is issued (request construction for the fixed-shape
payload cannot fail and the model default is value-filling only, so neither
affects the callback trace), a transport error is reported through a guarded
`OnError`, and a response is handed to `processStream`.  The second
component records whether the HTTP exchange was attempted. -/
def StreamChat (apiKey : String) (cb : Option StreamCallbacks)
    (net : HttpResult) (um : String → Option StreamEvent) : Trace × Bool :=
  if apiKey = "" then
    (⟨if hasOnError cb then [.error .invalidApiKey] else [], false⟩, false)
  else if net.transportErr then
    (⟨if hasOnError cb then [.error .transportFailed] else [], false⟩, true)
  else (processStream um cb net.status net.body, true)

/-- Fold of `handleLine` over a list of already-split lines, defined only
when no line halts the loop; used to state pre-terminator hypotheses. -/
def runLines (um : String → Option StreamEvent) (cb : Option StreamCallbacks) :
    String → List String → Option (String × List CbEvent)
  | acc, [] => some (acc, [])
  | acc, l :: ls =>
    match handleLine um cb acc (l.data ++ ['\n']) with
    | .next acc2 evs =>
      match runLines um cb acc2 ls with
      | some (a, es) => some (a, evs ++ es)
      | none => none
    | .halt _ _ => none

end OpenAI

namespace Anthropic

/-- Model of the `anthropic.Type` string constants (models.go). -/
def Start : String := "message_start"

/-- Model of `anthropic.ContentStart`. -/
def ContentStart : String := "content_block_start"

/-- Model of `anthropic.Delta`. -/
def Delta : String := "content_block_delta"

/-- Model of `anthropic.Stop`. -/
def Stop : String := "content_block_stop"

/-- Model of `anthropic.Finish`. -/
def Finish : String := "message_stop"

/-- Model of `anthropic.DeltaData` (models.go). -/
structure DeltaData where
  type : String := ""
  text : String := ""
  deriving DecidableEq, Repr

/-- Model of `anthropic.StreamEvent` (models.go). -/
structure StreamEvent where
  type : String := ""
  index : Int := 0
  delta : Option DeltaData := none
  deriving DecidableEq, Repr

/-- Handling of one extracted `data: ` payload in the anthropic loop
(anthropic.go lines 139-164): unmarshal, then switch on the event type.  In
the `Delta` case the accumulator update sits inside the `OnContent` presence
guard; in the `Finish` case the return sits inside the `OnFinish` presence
guard, so with that slot absent the loop keeps reading. -/
def handleData (um : String → Option StreamEvent) (cb : Option StreamCallbacks)
    (acc : String) (d : List Char) : LineStep :=
  match um (String.mk d) with
  | none =>
    if hasOnError cb then .next acc [.error .parseFailed] else .halt [] true
  | some ev =>
    if ev.type = Delta then
      match ev.delta with
      | some dd =>
        if dd.text = "" then .next acc []
        else if hasOnContent cb then .next (acc ++ dd.text) [.content dd.text]
        else .next acc []
      | none => .next acc []
    else if ev.type = Finish then
      if hasOnFinish cb then .halt [.finish acc] false
      else .next acc []
    else .next acc []

/-- The per-line body of the anthropic `processStream` loop (anthropic.go
lines 133-165): trim, skip empty lines, require the `data: ` marker, then
process the payload after the marker. -/
def handleLine (um : String → Option StreamEvent) (cb : Option StreamCallbacks)
    (acc : String) (line : List Char) : LineStep :=
  let l := trimSpace line
  if l.isEmpty then .next acc []
  else if dataHeader.isPrefixOf l then
    handleData um cb acc (l.drop dataHeader.length)
  else .next acc []

/-- The anthropic `processStream` read loop (anthropic.go lines 118-166),
identical in structure to the openai loop. -/
def streamLoop (um : String → Option StreamEvent) (cb : Option StreamCallbacks)
    (acc : String) (buf : List Char) : List Char → Bool → Trace
  | [], re =>
    if re then rawEmit (hasOnError cb) (.error .readFailed)
    else rawEmit (hasOnFinish cb) (.finish acc)
  | c :: rest, re =>
    if c = '\n' then
      match handleLine um cb acc (buf ++ ['\n']) with
      | .next acc2 evs =>
        let tr := streamLoop um cb acc2 [] rest re
        ⟨evs ++ tr.events, tr.panicked⟩
      | .halt evs p => ⟨evs, p⟩
    else streamLoop um cb acc (buf ++ [c]) rest re

/-- Model of `anthropic.processStream` (anthropic.go lines 107-166). -/
def processStream (um : String → Option StreamEvent) (cb : Option StreamCallbacks)
    (status : Nat) (body : Body) : Trace :=
  if status ≠ 200 then
    if body.readErr then rawEmit (hasOnError cb) (.error (.non200ReadBodyFailed status))
    else rawEmit (hasOnError cb) (.error (.non200Body status (String.mk body.chars)))
  else streamLoop um cb "" [] body.chars body.readErr

/-- Model of `anthropic.StreamChat` plus `streamAnthropic` (anthropic.go
lines 30-82), mirroring the openai driver. -/
def StreamChat (apiKey : String) (cb : Option StreamCallbacks)
    (net : HttpResult) (um : String → Option StreamEvent) : Trace × Bool :=
  if apiKey = "" then
    (⟨if hasOnError cb then [.error .invalidApiKey] else [], false⟩, false)
  else if net.transportErr then
    (⟨if hasOnError cb then [.error .transportFailed] else [], false⟩, true)
  else (processStream um cb net.status net.body, true)

/-- Fold of `handleLine` over already-split lines, defined only when no line
halts the loop. -/
def runLines (um : String → Option StreamEvent) (cb : Option StreamCallbacks) :
    String → List String → Option (String × List CbEvent)
  | acc, [] => some (acc, [])
  | acc, l :: ls =>
    match handleLine um cb acc (l.data ++ ['\n']) with
    | .next acc2 evs =>
      match runLines um cb acc2 ls with
      | some (a, es) => some (a, evs ++ es)
      | none => none
    | .halt _ _ => none

end Anthropic

/-! ### Derived notions used to state the claims -/

/-- Concatenation, in delivery order, of the arguments of every `onContent`
invocation in a trace. -/
def contentConcat : List CbEvent → String
  | [] => ""
  | CbEvent.content s :: es => s ++ contentConcat es
  | CbEvent.finish _ :: es => contentConcat es
  | CbEvent.error _ :: es => contentConcat es

/-- The accumulator/callback agreement invariant: reading the trace left to
right while extending `acc` with each delivered content fragment, every
finish event carries exactly the current `acc`. -/
def GoodTrace : String → List CbEvent → Prop
  | _, [] => True
  | acc, CbEvent.content s :: es => GoodTrace (acc ++ s) es
  | acc, CbEvent.finish s :: es => s = acc ∧ GoodTrace acc es
  | acc, CbEvent.error _ :: es => GoodTrace acc es

/-- Truncation of a Shape-A event to its first choice entry. -/
def truncChoices (ev : OpenAI.StreamEvent) : OpenAI.StreamEvent :=
  { ev with choices := ev.choices.take 1 }

/-- Concrete Shape-A unmarshal oracle used in witnesses: payload `P` is a
content delta `hi`, payload `Q` is a content delta ` there`, everything else
fails to deserialize. -/
def umO1 : String → Option OpenAI.StreamEvent := fun p =>
  if p = "P" then some { choices := [{ delta := { content := "hi" } }] }
  else if p = "Q" then some { choices := [{ delta := { content := " there" } }] }
  else none

/-- Concrete Shape-B unmarshal oracle used in witnesses: payload `D` is a
content-block delta `hi`, payload `E` is a content-block delta ` there`,
payload `S` is a message-stop event, everything else fails to deserialize. -/
def umA1 : String → Option Anthropic.StreamEvent := fun p =>
  if p = "D" then
    some { type := Anthropic.Delta, delta := some { type := "text_delta", text := "hi" } }
  else if p = "E" then
    some { type := Anthropic.Delta, delta := some { type := "text_delta", text := " there" } }
  else if p = "S" then some { type := Anthropic.Finish }
  else none

/-- A Shape-A oracle on which every payload fails to deserialize. -/
def umNoneO : String → Option OpenAI.StreamEvent := fun _ => none

/-- A Shape-B oracle on which every payload fails to deserialize. -/
def umNoneA : String → Option Anthropic.StreamEvent := fun _ => none

/-- A caller supplying all three callback slots. -/
def cbFull : Option StreamCallbacks := some ⟨true, true, true⟩

/-- A caller supplying `onFinish` and `onError` but not `onContent`. -/
def cbNoContent : Option StreamCallbacks := some ⟨false, true, true⟩

/-- A caller supplying `onContent` and `onError` but not `onFinish`. -/
def cbNoFinish : Option StreamCallbacks := some ⟨true, false, true⟩

/-! ### General lemmas about the embedding -/

lemma strDataAppend (a b : String) : (a ++ b).data = a.data ++ b.data := by
  cases a; cases b; rfl

lemma strMkData (s : String) : String.mk s.data = s := by
  cases s; rfl

lemma strAppendEmpty (s : String) : s ++ "" = s := by
  cases s with
  | mk l => show String.mk (l ++ []) = String.mk l
            rw [List.append_nil]

lemma strEmptyAppend (s : String) : "" ++ s = s := by
  cases s with
  | mk l => rfl

lemma strAppendAssoc (a b c : String) : a ++ b ++ c = a ++ (b ++ c) := by
  cases a with
  | mk x =>
    cases b with
    | mk y =>
      cases c with
      | mk z => show String.mk (x ++ y ++ z) = String.mk (x ++ (y ++ z))
                rw [List.append_assoc]

lemma encodeSSE_append (a b : List String) (t : List Char) :
    encodeSSE (a ++ b) t = encodeSSE a (encodeSSE b t) := by
  induction a with
  | nil => rfl
  | cons l ls ih => simp [encodeSSE, ih]

lemma dataHeaderChars : dataHeader = ['d', 'a', 't', 'a', ':', ' '] := rfl

lemma dataLineChars (p : String) : ("data: " ++ p).data = dataHeader ++ p.data := by
  rw [strDataAppend]; rfl

lemma strNeOfDataNe {p q : String} (h : p ≠ q) : p.data ≠ q.data := by
  intro hd
  exact h (by rw [← strMkData p, hd, strMkData])

namespace OpenAI

lemma streamLoop_line (um : String → Option StreamEvent) (cb : Option StreamCallbacks)
    (l : List Char) (h : '\n' ∉ l) :
    ∀ (buf rest : List Char) (acc : String) (re : Bool),
    streamLoop um cb acc buf (l ++ '\n' :: rest) re =
      match handleLine um cb acc (buf ++ l ++ ['\n']) with
      | .next a evs =>
        ⟨evs ++ (streamLoop um cb a [] rest re).events, (streamLoop um cb a [] rest re).panicked⟩
      | .halt evs p => ⟨evs, p⟩ := by
  induction l with
  | nil =>
    intro buf rest acc re
    simp [streamLoop]
  | cons c l ih =>
    intro buf rest acc re
    have hc : ¬(c = '\n') := by
      intro hh
      exact h (by simp [hh])
    have h2 : '\n' ∉ l := fun hm => h (List.mem_cons_of_mem _ hm)
    simp only [List.cons_append, streamLoop, if_neg hc]
    refine (ih h2 (buf ++ [c]) rest acc re).trans ?_
    simp [List.append_assoc]

lemma streamLoop_noNewline (um : String → Option StreamEvent) (cb : Option StreamCallbacks) :
    ∀ (t : List Char), '\n' ∉ t → ∀ (buf : List Char) (acc : String),
    streamLoop um cb acc buf t false = rawEmit (hasOnFinish cb) (.finish acc) := by
  intro t
  induction t with
  | nil => intro _ buf acc; simp [streamLoop]
  | cons c t ih =>
    intro h buf acc
    have hc : ¬(c = '\n') := by
      intro hh
      exact h (by simp [hh])
    have h2 : '\n' ∉ t := fun hm => h (List.mem_cons_of_mem _ hm)
    simp only [streamLoop, if_neg hc]
    exact ih h2 (buf ++ [c]) acc

lemma streamLoop_runLines (um : String → Option StreamEvent) (cb : Option StreamCallbacks) :
    ∀ (ls : List String) (acc acc2 : String) (evs : List CbEvent) (t : List Char) (re : Bool),
    (∀ l ∈ ls, '\n' ∉ l.data) →
    runLines um cb acc ls = some (acc2, evs) →
    streamLoop um cb acc [] (encodeSSE ls t) re =
      ⟨evs ++ (streamLoop um cb acc2 [] t re).events, (streamLoop um cb acc2 [] t re).panicked⟩ := by
  intro ls
  induction ls with
  | nil =>
    intro acc acc2 evs t re hwf hr
    simp [runLines] at hr
    obtain ⟨rfl, rfl⟩ := hr
    rfl
  | cons l ls ih =>
    intro acc acc2 evs t re hwf hr
    have hl : '\n' ∉ l.data := hwf l (List.mem_cons_self _ _)
    have hls : ∀ x ∈ ls, '\n' ∉ x.data := fun x hx => hwf x (List.mem_cons_of_mem _ hx)
    rw [show encodeSSE (l :: ls) t = l.data ++ '\n' :: encodeSSE ls t from rfl]
    rw [streamLoop_line um cb l.data hl [] _ acc re]
    simp only [List.nil_append]
    unfold runLines at hr
    cases hh : handleLine um cb acc (l.data ++ ['\n']) with
    | next a evs1 =>
      rw [hh] at hr
      simp only [] at hr
      cases hr2 : runLines um cb a ls with
      | none => rw [hr2] at hr; simp at hr
      | some pr =>
        obtain ⟨a2, es⟩ := pr
        rw [hr2] at hr
        simp at hr
        obtain ⟨rfl, rfl⟩ := hr
        show (⟨evs1 ++ (streamLoop um cb a [] (encodeSSE ls t) re).events,
              (streamLoop um cb a [] (encodeSSE ls t) re).panicked⟩ : Trace) = _
        rw [ih a a2 es t re hls hr2]
        simp
    | halt evs1 p =>
      rw [hh] at hr
      simp at hr

lemma handleLine_clean (um : String → Option StreamEvent) (cb : Option StreamCallbacks)
    (acc : String) (p : String) (hp : cleanPayload p) :
    handleLine um cb acc (("data: " ++ p).data ++ ['\n']) = handleData um cb acc p.data := by
  have h2 : trimSpace ((['d', 'a', 't', 'a', ':', ' '] ++ p.data) ++ ['\n']) =
      ['d', 'a', 't', 'a', ':', ' '] ++ p.data := by
    have h3 := hp.2
    rwa [dataLineChars, dataHeaderChars] at h3
  simp only [handleLine, dataLineChars, dataHeaderChars, h2]
  rw [show ((['d', 'a', 't', 'a', ':', ' '] : List Char) ++ p.data).drop
        (['d', 'a', 't', 'a', ':', ' '] : List Char).length = p.data from List.drop_left _ _]
  simp [List.isPrefixOf]

end OpenAI

namespace OpenAI

lemma handleData_done (um : String → Option StreamEvent) (cb : Option StreamCallbacks)
    (acc : String) :
    handleData um cb acc "[DONE]".data =
      if hasOnFinish cb then .halt [.finish acc] false else .halt [] true := by
  unfold handleData
  rw [if_pos rfl]

lemma handleData_parse_error (um : String → Option StreamEvent) (cb : Option StreamCallbacks)
    (acc : String) (p : String) (hd : p ≠ "[DONE]") (hu : um p = none) :
    handleData um cb acc p.data =
      if hasOnError cb then .next acc [.error .parseFailed] else .halt [] true := by
  unfold handleData
  rw [if_neg (strNeOfDataNe hd), strMkData, hu]

lemma handleData_delta (um : String → Option StreamEvent) (cb : Option StreamCallbacks)
    (acc : String) (p s : String) (ev : StreamEvent) (c : Choice) (cs : List Choice)
    (hd : p ≠ "[DONE]") (hu : um p = some ev) (hc : ev.choices = c :: cs)
    (hs : c.delta.content = s) (hne : s ≠ "") :
    handleData um cb acc p.data =
      if hasOnContent cb then .next (acc ++ s) [.content s] else .next (acc ++ s) [] := by
  unfold handleData
  rw [if_neg (strNeOfDataNe hd), strMkData, hu]
  simp only [hc, hs, if_neg hne]

end OpenAI

namespace Anthropic

lemma streamLoop_lineA (um : String → Option StreamEvent) (cb : Option StreamCallbacks)
    (l : List Char) (h : '\n' ∉ l) :
    ∀ (buf rest : List Char) (acc : String) (re : Bool),
    streamLoop um cb acc buf (l ++ '\n' :: rest) re =
      match handleLine um cb acc (buf ++ l ++ ['\n']) with
      | .next a evs =>
        ⟨evs ++ (streamLoop um cb a [] rest re).events, (streamLoop um cb a [] rest re).panicked⟩
      | .halt evs p => ⟨evs, p⟩ := by
  induction l with
  | nil =>
    intro buf rest acc re
    simp [streamLoop]
  | cons c l ih =>
    intro buf rest acc re
    have hc : ¬(c = '\n') := by
      intro hh
      exact h (by simp [hh])
    have h2 : '\n' ∉ l := fun hm => h (List.mem_cons_of_mem _ hm)
    simp only [List.cons_append, streamLoop, if_neg hc]
    refine (ih h2 (buf ++ [c]) rest acc re).trans ?_
    simp [List.append_assoc]

lemma streamLoop_noNewlineA (um : String → Option StreamEvent) (cb : Option StreamCallbacks) :
    ∀ (t : List Char), '\n' ∉ t → ∀ (buf : List Char) (acc : String),
    streamLoop um cb acc buf t false = rawEmit (hasOnFinish cb) (.finish acc) := by
  intro t
  induction t with
  | nil => intro _ buf acc; simp [streamLoop]
  | cons c t ih =>
    intro h buf acc
    have hc : ¬(c = '\n') := by
      intro hh
      exact h (by simp [hh])
    have h2 : '\n' ∉ t := fun hm => h (List.mem_cons_of_mem _ hm)
    simp only [streamLoop, if_neg hc]
    exact ih h2 (buf ++ [c]) acc

lemma streamLoop_runLinesA (um : String → Option StreamEvent) (cb : Option StreamCallbacks) :
    ∀ (ls : List String) (acc acc2 : String) (evs : List CbEvent) (t : List Char) (re : Bool),
    (∀ l ∈ ls, '\n' ∉ l.data) →
    runLines um cb acc ls = some (acc2, evs) →
    streamLoop um cb acc [] (encodeSSE ls t) re =
      ⟨evs ++ (streamLoop um cb acc2 [] t re).events, (streamLoop um cb acc2 [] t re).panicked⟩ := by
  intro ls
  induction ls with
  | nil =>
    intro acc acc2 evs t re hwf hr
    simp [runLines] at hr
    obtain ⟨rfl, rfl⟩ := hr
    rfl
  | cons l ls ih =>
    intro acc acc2 evs t re hwf hr
    have hl : '\n' ∉ l.data := hwf l (List.mem_cons_self _ _)
    have hls : ∀ x ∈ ls, '\n' ∉ x.data := fun x hx => hwf x (List.mem_cons_of_mem _ hx)
    rw [show encodeSSE (l :: ls) t = l.data ++ '\n' :: encodeSSE ls t from rfl]
    rw [streamLoop_lineA um cb l.data hl [] _ acc re]
    simp only [List.nil_append]
    unfold runLines at hr
    cases hh : handleLine um cb acc (l.data ++ ['\n']) with
    | next a evs1 =>
      rw [hh] at hr
      simp only [] at hr
      cases hr2 : runLines um cb a ls with
      | none => rw [hr2] at hr; simp at hr
      | some pr =>
        obtain ⟨a2, es⟩ := pr
        rw [hr2] at hr
        simp at hr
        obtain ⟨rfl, rfl⟩ := hr
        show (⟨evs1 ++ (streamLoop um cb a [] (encodeSSE ls t) re).events,
              (streamLoop um cb a [] (encodeSSE ls t) re).panicked⟩ : Trace) = _
        rw [ih a a2 es t re hls hr2]
        simp
    | halt evs1 p =>
      rw [hh] at hr
      simp at hr

lemma handleLine_cleanA (um : String → Option StreamEvent) (cb : Option StreamCallbacks)
    (acc : String) (p : String) (hp : cleanPayload p) :
    handleLine um cb acc (("data: " ++ p).data ++ ['\n']) = handleData um cb acc p.data := by
  have h2 : trimSpace ((['d', 'a', 't', 'a', ':', ' '] ++ p.data) ++ ['\n']) =
      ['d', 'a', 't', 'a', ':', ' '] ++ p.data := by
    have h3 := hp.2
    rwa [dataLineChars, dataHeaderChars] at h3
  simp only [handleLine, dataLineChars, dataHeaderChars, h2]
  rw [show ((['d', 'a', 't', 'a', ':', ' '] : List Char) ++ p.data).drop
        (['d', 'a', 't', 'a', ':', ' '] : List Char).length = p.data from List.drop_left _ _]
  simp [List.isPrefixOf]

lemma handleData_parse_errorA (um : String → Option StreamEvent) (cb : Option StreamCallbacks)
    (acc : String) (p : String) (hu : um p = none) :
    handleData um cb acc p.data =
      if hasOnError cb then .next acc [.error .parseFailed] else .halt [] true := by
  unfold handleData
  rw [strMkData, hu]

lemma handleData_deltaA (um : String → Option StreamEvent) (cb : Option StreamCallbacks)
    (acc : String) (p s : String) (ev : StreamEvent) (dd : DeltaData)
    (hu : um p = some ev) (ht : ev.type = Delta) (hdd : ev.delta = some dd)
    (hs : dd.text = s) (hne : s ≠ "") :
    handleData um cb acc p.data =
      if hasOnContent cb then .next (acc ++ s) [.content s] else .next acc [] := by
  unfold handleData
  rw [strMkData, hu]
  simp only [ht, if_pos rfl, hdd, hs, if_neg hne]
  simp

lemma handleData_finish (um : String → Option StreamEvent) (cb : Option StreamCallbacks)
    (acc : String) (p : String) (ev : StreamEvent)
    (hu : um p = some ev) (ht : ev.type = Finish) :
    handleData um cb acc p.data =
      if hasOnFinish cb then .halt [.finish acc] false else .next acc [] := by
  unfold handleData
  rw [strMkData, hu]
  simp only [ht]
  simp
  intro h
  exact absurd h (by decide)

end Anthropic

lemma goodTrace_last_finish :
    ∀ (pre : List CbEvent) (acc s : String),
    GoodTrace acc (pre ++ [CbEvent.finish s]) → s = acc ++ contentConcat pre := by
  intro pre
  induction pre with
  | nil =>
    intro acc s h
    simp [GoodTrace] at h
    simpa [contentConcat, strAppendEmpty] using h
  | cons e pre ih =>
    intro acc s h
    cases e with
    | content s2 =>
      have h2 := ih (acc ++ s2) s (by simpa [GoodTrace] using h)
      simp only [contentConcat]
      rw [← strAppendAssoc]
      exact h2
    | finish s2 =>
      simp [GoodTrace] at h
      simp only [contentConcat]
      exact ih acc s h.2
    | error e2 =>
      simp [GoodTrace] at h
      simp only [contentConcat]
      exact ih acc s h

namespace OpenAI

lemma streamLoop_newline (um : String → Option StreamEvent) (cb : Option StreamCallbacks)
    (acc : String) (buf rest : List Char) (re : Bool) :
    streamLoop um cb acc buf ('\n' :: rest) re =
      match handleLine um cb acc (buf ++ ['\n']) with
      | .next a evs =>
        ⟨evs ++ (streamLoop um cb a [] rest re).events, (streamLoop um cb a [] rest re).panicked⟩
      | .halt evs p => ⟨evs, p⟩ := by
  simp [streamLoop]

lemma streamLoop_other (um : String → Option StreamEvent) (cb : Option StreamCallbacks)
    (acc : String) (buf rest : List Char) (re : Bool) (c : Char) (hc : ¬(c = '\n')) :
    streamLoop um cb acc buf (c :: rest) re = streamLoop um cb acc (buf ++ [c]) rest re := by
  simp [streamLoop, hc]

lemma handleLine_cases (um : String → Option StreamEvent) (cb : Option StreamCallbacks)
    (acc : String) (line : List Char) (hc : hasOnContent cb = true) :
    handleLine um cb acc line = .next acc [] ∨
    handleLine um cb acc line = .next acc [.error .parseFailed] ∨
    (∃ s, handleLine um cb acc line = .next (acc ++ s) [.content s]) ∨
    handleLine um cb acc line = .halt [.finish acc] false ∨
    handleLine um cb acc line = .halt [] true := by
  simp only [handleLine, handleData]
  repeat' split
  all_goals first
    | exact Or.inl rfl
    | exact Or.inr (Or.inl rfl)
    | exact Or.inr (Or.inr (Or.inl ⟨_, rfl⟩))
    | exact Or.inr (Or.inr (Or.inr (Or.inl rfl)))
    | exact Or.inr (Or.inr (Or.inr (Or.inr rfl)))
    | simp_all

lemma streamLoop_good (um : String → Option StreamEvent) (cb : Option StreamCallbacks)
    (hc : hasOnContent cb = true) :
    ∀ (cs : List Char) (acc : String) (buf : List Char) (re : Bool),
    GoodTrace acc (streamLoop um cb acc buf cs re).events := by
  intro cs
  induction cs with
  | nil =>
    intro acc buf re
    cases re <;> simp [streamLoop, rawEmit] <;> split <;> simp [GoodTrace]
  | cons c rest ih =>
    intro acc buf re
    by_cases hcn : c = '\n'
    · subst hcn
      rw [streamLoop_newline]
      rcases handleLine_cases um cb acc (buf ++ ['\n']) hc with h | h | ⟨s, h⟩ | h | h <;> rw [h]
      · simpa using ih acc [] re
      · simpa [GoodTrace] using ih acc [] re
      · simpa [GoodTrace] using ih (acc ++ s) [] re
      · simp [GoodTrace]
      · simp [GoodTrace]
    · rw [streamLoop_other um cb acc buf rest re c hcn]
      exact ih acc (buf ++ [c]) re

lemma processStream_good (um : String → Option StreamEvent) (cb : Option StreamCallbacks)
    (hc : hasOnContent cb = true) (status : Nat) (body : Body) :
    GoodTrace "" (processStream um cb status body).events := by
  unfold processStream
  split
  · split <;> simp [rawEmit] <;> split <;> simp [GoodTrace]
  · exact streamLoop_good um cb hc body.chars "" [] body.readErr

end OpenAI

namespace Anthropic

lemma streamLoop_newlineA (um : String → Option StreamEvent) (cb : Option StreamCallbacks)
    (acc : String) (buf rest : List Char) (re : Bool) :
    streamLoop um cb acc buf ('\n' :: rest) re =
      match handleLine um cb acc (buf ++ ['\n']) with
      | .next a evs =>
        ⟨evs ++ (streamLoop um cb a [] rest re).events, (streamLoop um cb a [] rest re).panicked⟩
      | .halt evs p => ⟨evs, p⟩ := by
  simp [streamLoop]

lemma streamLoop_otherA (um : String → Option StreamEvent) (cb : Option StreamCallbacks)
    (acc : String) (buf rest : List Char) (re : Bool) (c : Char) (hc : ¬(c = '\n')) :
    streamLoop um cb acc buf (c :: rest) re = streamLoop um cb acc (buf ++ [c]) rest re := by
  simp [streamLoop, hc]

lemma handleLine_casesA (um : String → Option StreamEvent) (cb : Option StreamCallbacks)
    (acc : String) (line : List Char) :
    handleLine um cb acc line = .next acc [] ∨
    handleLine um cb acc line = .next acc [.error .parseFailed] ∨
    (∃ s, handleLine um cb acc line = .next (acc ++ s) [.content s]) ∨
    handleLine um cb acc line = .halt [.finish acc] false ∨
    handleLine um cb acc line = .halt [] true := by
  simp only [handleLine, handleData]
  repeat' split
  all_goals first
    | exact Or.inl rfl
    | exact Or.inr (Or.inl rfl)
    | exact Or.inr (Or.inr (Or.inl ⟨_, rfl⟩))
    | exact Or.inr (Or.inr (Or.inr (Or.inl rfl)))
    | exact Or.inr (Or.inr (Or.inr (Or.inr rfl)))
    | simp_all

lemma streamLoop_goodA (um : String → Option StreamEvent) (cb : Option StreamCallbacks) :
    ∀ (cs : List Char) (acc : String) (buf : List Char) (re : Bool),
    GoodTrace acc (streamLoop um cb acc buf cs re).events := by
  intro cs
  induction cs with
  | nil =>
    intro acc buf re
    cases re <;> simp [streamLoop, rawEmit] <;> split <;> simp [GoodTrace]
  | cons c rest ih =>
    intro acc buf re
    by_cases hcn : c = '\n'
    · subst hcn
      rw [streamLoop_newlineA]
      rcases handleLine_casesA um cb acc (buf ++ ['\n']) with h | h | ⟨s, h⟩ | h | h <;> rw [h]
      · simpa using ih acc [] re
      · simpa [GoodTrace] using ih acc [] re
      · simpa [GoodTrace] using ih (acc ++ s) [] re
      · simp [GoodTrace]
      · simp [GoodTrace]
    · rw [streamLoop_otherA um cb acc buf rest re c hcn]
      exact ih acc (buf ++ [c]) re

lemma processStream_goodA (um : String → Option StreamEvent) (cb : Option StreamCallbacks)
    (status : Nat) (body : Body) :
    GoodTrace "" (processStream um cb status body).events := by
  unfold processStream
  split
  · split <;> simp [rawEmit] <;> split <;> simp [GoodTrace]
  · exact streamLoop_goodA um cb body.chars "" [] body.readErr

end Anthropic

lemma cleanPayload_noNewline (p : String) (hp : cleanPayload p) :
    '\n' ∉ ("data: " ++ p).data := by
  rw [dataLineChars]
  intro hm
  rcases List.mem_append.mp hm with h1 | h2
  · revert h1
    decide
  · exact hp.1 h2

namespace OpenAI

lemma processStream_ok (um : String → Option StreamEvent) (cb : Option StreamCallbacks)
    (body : Body) :
    processStream um cb 200 body = streamLoop um cb "" [] body.chars body.readErr := by
  simp [processStream]

lemma runLines_nil (um : String → Option StreamEvent) (cb : Option StreamCallbacks)
    (acc : String) : runLines um cb acc [] = some (acc, []) := rfl

lemma runLines_cons_next (um : String → Option StreamEvent) (cb : Option StreamCallbacks)
    (acc a a2 : String) (l : String) (ls : List String) (evs es : List CbEvent)
    (h : handleLine um cb acc (l.data ++ ['\n']) = .next a evs)
    (h2 : runLines um cb a ls = some (a2, es)) :
    runLines um cb acc (l :: ls) = some (a2, evs ++ es) := by
  unfold runLines
  rw [h]
  show (match runLines um cb a ls with
        | some (x, es2) => some (x, evs ++ es2)
        | none => none) = some (a2, evs ++ es)
  rw [h2]

lemma handleLine_done (um : String → Option StreamEvent) (cb : Option StreamCallbacks)
    (acc : String) :
    handleLine um cb acc ("data: [DONE]".data ++ ['\n']) =
      if hasOnFinish cb then .halt [.finish acc] false else .halt [] true := rfl

lemma streamLoop_drop_tail (um : String → Option StreamEvent) (cb : Option StreamCallbacks)
    (t : List Char) (ht : '\n' ∉ t) :
    ∀ (ls : List String) (acc : String), (∀ l ∈ ls, '\n' ∉ l.data) →
    streamLoop um cb acc [] (encodeSSE ls t) false =
      streamLoop um cb acc [] (encodeSSE ls []) false := by
  intro ls
  induction ls with
  | nil =>
    intro acc _
    rw [show encodeSSE [] t = t from rfl, show encodeSSE [] [] = ([] : List Char) from rfl]
    rw [streamLoop_noNewline um cb t ht [] acc]
    simp [streamLoop]
  | cons l ls ih =>
    intro acc hwf
    have hl := hwf l (List.mem_cons_self _ _)
    have hls : ∀ x ∈ ls, '\n' ∉ x.data := fun x hx => hwf x (List.mem_cons_of_mem _ hx)
    rw [show encodeSSE (l :: ls) t = l.data ++ '\n' :: encodeSSE ls t from rfl,
        show encodeSSE (l :: ls) [] = l.data ++ '\n' :: encodeSSE ls [] from rfl,
        streamLoop_line um cb l.data hl [] _ acc false,
        streamLoop_line um cb l.data hl [] _ acc false]
    cases hh : handleLine um cb acc ([] ++ l.data ++ ['\n']) with
    | next a evs =>
      show (⟨evs ++ (streamLoop um cb a [] (encodeSSE ls t) false).events,
            (streamLoop um cb a [] (encodeSSE ls t) false).panicked⟩ : Trace) =
           ⟨evs ++ (streamLoop um cb a [] (encodeSSE ls []) false).events,
            (streamLoop um cb a [] (encodeSSE ls []) false).panicked⟩
      rw [ih a hls]
    | halt evs p => rfl

lemma handleData_trunc (um : String → Option StreamEvent) (cb : Option StreamCallbacks)
    (acc : String) (d : List Char) :
    handleData (fun p => (um p).map truncChoices) cb acc d = handleData um cb acc d := by
  unfold handleData
  split
  · rfl
  · cases hu : um (String.mk d) with
    | none => simp [hu]
    | some ev =>
      simp only [hu, Option.map_some']
      cases hcv : ev.choices with
      | nil => simp [truncChoices, hcv]
      | cons c cs => simp [truncChoices, hcv]

end OpenAI

namespace OpenAI

lemma handleLine_trunc (um : String → Option StreamEvent) (cb : Option StreamCallbacks)
    (acc : String) (line : List Char) :
    handleLine (fun p => (um p).map truncChoices) cb acc line = handleLine um cb acc line := by
  simp only [handleLine, handleData_trunc]

lemma streamLoop_trunc (um : String → Option StreamEvent) (cb : Option StreamCallbacks) :
    ∀ (cs : List Char) (acc : String) (buf : List Char) (re : Bool),
    streamLoop (fun p => (um p).map truncChoices) cb acc buf cs re =
      streamLoop um cb acc buf cs re := by
  intro cs
  induction cs with
  | nil => intro acc buf re; rfl
  | cons c rest ih =>
    intro acc buf re
    by_cases hcn : c = '\n'
    · subst hcn
      rw [streamLoop_newline, streamLoop_newline, handleLine_trunc]
      cases handleLine um cb acc (buf ++ ['\n']) with
      | next a evs =>
        show (⟨evs ++ (streamLoop (fun p => (um p).map truncChoices) cb a [] rest re).events,
              (streamLoop (fun p => (um p).map truncChoices) cb a [] rest re).panicked⟩ : Trace) =
             ⟨evs ++ (streamLoop um cb a [] rest re).events,
              (streamLoop um cb a [] rest re).panicked⟩
        rw [ih a [] re]
      | halt evs p => rfl
    · rw [streamLoop_other _ cb acc buf rest re c hcn,
          streamLoop_other um cb acc buf rest re c hcn]
      exact ih acc (buf ++ [c]) re

end OpenAI

namespace Anthropic

lemma processStream_okA (um : String → Option StreamEvent) (cb : Option StreamCallbacks)
    (body : Body) :
    processStream um cb 200 body = streamLoop um cb "" [] body.chars body.readErr := by
  simp [processStream]

lemma runLines_nilA (um : String → Option StreamEvent) (cb : Option StreamCallbacks)
    (acc : String) : runLines um cb acc [] = some (acc, []) := rfl

lemma runLines_cons_nextA (um : String → Option StreamEvent) (cb : Option StreamCallbacks)
    (acc a a2 : String) (l : String) (ls : List String) (evs es : List CbEvent)
    (h : handleLine um cb acc (l.data ++ ['\n']) = .next a evs)
    (h2 : runLines um cb a ls = some (a2, es)) :
    runLines um cb acc (l :: ls) = some (a2, evs ++ es) := by
  unfold runLines
  rw [h]
  show (match runLines um cb a ls with
        | some (x, es2) => some (x, evs ++ es2)
        | none => none) = some (a2, evs ++ es)
  rw [h2]

lemma streamLoop_drop_tailA (um : String → Option StreamEvent) (cb : Option StreamCallbacks)
    (t : List Char) (ht : '\n' ∉ t) :
    ∀ (ls : List String) (acc : String), (∀ l ∈ ls, '\n' ∉ l.data) →
    streamLoop um cb acc [] (encodeSSE ls t) false =
      streamLoop um cb acc [] (encodeSSE ls []) false := by
  intro ls
  induction ls with
  | nil =>
    intro acc _
    rw [show encodeSSE [] t = t from rfl, show encodeSSE [] [] = ([] : List Char) from rfl]
    rw [streamLoop_noNewlineA um cb t ht [] acc]
    simp [streamLoop]
  | cons l ls ih =>
    intro acc hwf
    have hl := hwf l (List.mem_cons_self _ _)
    have hls : ∀ x ∈ ls, '\n' ∉ x.data := fun x hx => hwf x (List.mem_cons_of_mem _ hx)
    rw [show encodeSSE (l :: ls) t = l.data ++ '\n' :: encodeSSE ls t from rfl,
        show encodeSSE (l :: ls) [] = l.data ++ '\n' :: encodeSSE ls [] from rfl,
        streamLoop_lineA um cb l.data hl [] _ acc false,
        streamLoop_lineA um cb l.data hl [] _ acc false]
    cases hh : handleLine um cb acc ([] ++ l.data ++ ['\n']) with
    | next a evs =>
      show (⟨evs ++ (streamLoop um cb a [] (encodeSSE ls t) false).events,
            (streamLoop um cb a [] (encodeSSE ls t) false).panicked⟩ : Trace) =
           ⟨evs ++ (streamLoop um cb a [] (encodeSSE ls []) false).events,
            (streamLoop um cb a [] (encodeSSE ls []) false).panicked⟩
      rw [ih a hls]
    | halt evs p => rfl

end Anthropic

/-! ### Claims -/

/-- Claim C1, counterexample to the statement as written: with a CallbackSet
whose onContent slot is absent, the openai decoder still accumulates the
delta text, so the final onFinish argument is `hi` while the concatenation
of the (zero) onContent arguments is empty. -/
theorem C1_as_stated_counterexample :
    ¬ (∀ (pre : List CbEvent) (s : String),
        (OpenAI.processStream umO1 cbNoContent 200
          ⟨encodeSSE ["data: P", "data: [DONE]"] [], false⟩).events =
            pre ++ [CbEvent.finish s] →
        s = contentConcat pre) := by
  intro h
  have h2 := h [] "hi" rfl
  simp only [contentConcat] at h2
  exact absurd h2 (by decide)

/-- Claim C1 (amended to CallbackSets in which onContent is present): for a
well-formed Shape-A stream ending in `data: [DONE]` and for a well-formed
Shape-B stream ending in a message-stop event — indeed for every stream of
either shape — the argument of the final onFinish invocation equals the
concatenation, in delivery order, of every onContent argument delivered
during that stream. -/
theorem C1_finish_equals_content_concat
    (umO : String → Option OpenAI.StreamEvent) (umA : String → Option Anthropic.StreamEvent)
    (cb : Option StreamCallbacks) (hc : hasOnContent cb = true)
    (status : Nat) (bO bA : Body) (preO preA : List CbEvent) (sO sA : String) :
    ((OpenAI.processStream umO cb status bO).events = preO ++ [CbEvent.finish sO] →
      sO = contentConcat preO) ∧
    ((Anthropic.processStream umA cb status bA).events = preA ++ [CbEvent.finish sA] →
      sA = contentConcat preA) := by
  constructor
  · intro h
    have hg := OpenAI.processStream_good umO cb hc status bO
    rw [h] at hg
    have h3 := goodTrace_last_finish preO "" sO hg
    rwa [strEmptyAppend] at h3
  · intro h
    have hg := Anthropic.processStream_goodA umA cb status bA
    rw [h] at hg
    have h3 := goodTrace_last_finish preA "" sA hg
    rwa [strEmptyAppend] at h3

/-- Witness for C1: on the concrete Shape-A stream `data: P`, `data: [DONE]`
with all callbacks present, the trace is content `hi` then finish `hi`, and
the amended claim instantiated there yields `hi` as the content
concatenation. -/
theorem C1_finish_equals_content_concat_witness :
    hasOnContent cbFull = true ∧
    (OpenAI.processStream umO1 cbFull 200
      ⟨encodeSSE ["data: P", "data: [DONE]"] [], false⟩).events =
      [CbEvent.content "hi"] ++ [CbEvent.finish "hi"] ∧
    "hi" = contentConcat [CbEvent.content "hi"] := by
  refine ⟨rfl, rfl, ?_⟩
  exact (C1_finish_equals_content_concat umO1 umA1 cbFull rfl 200
    ⟨encodeSSE ["data: P", "data: [DONE]"] [], false⟩
    ⟨encodeSSE ["data: D", "data: S"] [], false⟩
    [CbEvent.content "hi"] [CbEvent.content "hi"] "hi" "hi").1 rfl

/-- Claim C5 is violated by the code: with the callback struct pointer nil
(and likewise with any nil slot on a path that invokes it unguarded), the
EOF path of either provider's processStream calls `cb.OnFinish` without a
nil check, and the resulting panic escapes through StreamChat. -/
theorem C5_nil_slot_panics :
    (OpenAI.StreamChat "key" none ⟨false, 200, ⟨[], false⟩⟩ umNoneO).1.panicked = true ∧
    (Anthropic.StreamChat "key" none ⟨false, 200, ⟨[], false⟩⟩ umNoneA).1.panicked = true := by
  constructor <;> rfl

/-- Claim C6 is violated by the anthropic code (and satisfied by the openai
code): with the onContent slot absent, a Shape-B content delta `hi` is not
appended to the accumulator, so the finish callback at message-stop receives
the empty string, while the openai decoder in the same situation delivers
the full accumulated text `hi` to onFinish. -/
theorem C6_accumulator_skipped_without_onContent :
    Anthropic.processStream umA1 cbNoContent 200
      ⟨encodeSSE ["data: D", "data: S"] [], false⟩ = ⟨[CbEvent.finish ""], false⟩ ∧
    OpenAI.processStream umO1 cbNoContent 200
      ⟨encodeSSE ["data: P", "data: [DONE]"] [], false⟩ = ⟨[CbEvent.finish "hi"], false⟩ := by
  constructor <;> rfl

/-- Claim C10: text carried by the second and later entries of a Shape-A
choices array is never delivered and never reaches the accumulator — the
decoder's observable behaviour is unchanged when every unmarshalled event is
truncated to its first choice entry. -/
theorem C10_only_first_choice_used
    (um : String → Option OpenAI.StreamEvent) (cb : Option StreamCallbacks)
    (status : Nat) (body : Body) :
    OpenAI.processStream (fun p => (um p).map truncChoices) cb status body =
      OpenAI.processStream um cb status body := by
  unfold OpenAI.processStream
  split
  · rfl
  · exact OpenAI.streamLoop_trunc um cb body.chars "" [] body.readErr

/-- Claim C7: StreamChat with an empty API key never consults the HTTP
transport (second component false, trace independent of the would-be
response), never panics, and invokes no onContent or onFinish; when the
onError slot is supplied it is invoked exactly once with the
invalid-api-key error, and when it is absent nothing is invoked at all. -/
theorem C7_empty_key_rejected
    (cb : Option StreamCallbacks) (netO netA : HttpResult)
    (umO : String → Option OpenAI.StreamEvent) (umA : String → Option Anthropic.StreamEvent) :
    (OpenAI.StreamChat "" cb netO umO).2 = false ∧
    (Anthropic.StreamChat "" cb netA umA).2 = false ∧
    (OpenAI.StreamChat "" cb netO umO).1.panicked = false ∧
    (Anthropic.StreamChat "" cb netA umA).1.panicked = false ∧
    (hasOnError cb = true →
      (OpenAI.StreamChat "" cb netO umO).1.events = [CbEvent.error .invalidApiKey] ∧
      (Anthropic.StreamChat "" cb netA umA).1.events = [CbEvent.error .invalidApiKey]) ∧
    (hasOnError cb = false →
      (OpenAI.StreamChat "" cb netO umO).1.events = [] ∧
      (Anthropic.StreamChat "" cb netA umA).1.events = []) := by
  unfold OpenAI.StreamChat Anthropic.StreamChat
  refine ⟨rfl, rfl, rfl, rfl, ?_, ?_⟩ <;> intro h <;> simp [h]

/-- Witness for C7: with all callbacks present and a transport that would
have returned a 200 response, the empty-key invocation of either provider
makes no network call and reports exactly one invalid-api-key error. -/
theorem C7_empty_key_rejected_witness :
    (OpenAI.StreamChat "" cbFull ⟨false, 200, ⟨[], false⟩⟩ umO1).2 = false ∧
    (OpenAI.StreamChat "" cbFull ⟨false, 200, ⟨[], false⟩⟩ umO1).1.events =
      [CbEvent.error .invalidApiKey] ∧
    (Anthropic.StreamChat "" cbFull ⟨false, 200, ⟨[], false⟩⟩ umA1).1.events =
      [CbEvent.error .invalidApiKey] := by
  have h := C7_empty_key_rejected cbFull ⟨false, 200, ⟨[], false⟩⟩ ⟨false, 200, ⟨[], false⟩⟩
    umO1 umA1
  exact ⟨h.1, (h.2.2.2.2.1 rfl).1, (h.2.2.2.2.1 rfl).2⟩

/-- Claim C8: on a non-200 response with the onError slot present, each
provider invokes onError exactly once and attempts no stream decoding (the
oracle does not occur in the resulting trace): if reading the body fails,
the error is the distinct read-failure error carrying the status code; if
the body is readable, its entire content together with the status code is
carried by the single error; no onFinish follows in either case. -/
theorem C8_non200_single_error
    (umO : String → Option OpenAI.StreamEvent) (umA : String → Option Anthropic.StreamEvent)
    (cb : Option StreamCallbacks) (status : Nat) (body : Body)
    (hs : status ≠ 200) (he : hasOnError cb = true) :
    (body.readErr = true →
      OpenAI.processStream umO cb status body =
        ⟨[CbEvent.error (.non200ReadBodyFailed status)], false⟩ ∧
      Anthropic.processStream umA cb status body =
        ⟨[CbEvent.error (.non200ReadBodyFailed status)], false⟩) ∧
    (body.readErr = false →
      OpenAI.processStream umO cb status body =
        ⟨[CbEvent.error (.non200Body status (String.mk body.chars))], false⟩ ∧
      Anthropic.processStream umA cb status body =
        ⟨[CbEvent.error (.non200Body status (String.mk body.chars))], false⟩) := by
  unfold OpenAI.processStream Anthropic.processStream
  rw [if_pos hs, if_pos hs]
  constructor <;> intro h <;> simp [h, rawEmit, he]

/-- Witness for C8: a 404 response with readable body `oops`, and a 500
response whose body read fails, each produce the corresponding single
error. -/
theorem C8_non200_single_error_witness :
    OpenAI.processStream umO1 cbFull 404 ⟨"oops".data, false⟩ =
      ⟨[CbEvent.error (.non200Body 404 (String.mk "oops".data))], false⟩ ∧
    Anthropic.processStream umA1 cbFull 500 ⟨[], true⟩ =
      ⟨[CbEvent.error (.non200ReadBodyFailed 500)], false⟩ := by
  constructor
  · exact ((C8_non200_single_error umO1 umA1 cbFull 404 ⟨"oops".data, false⟩
      (by decide) rfl).2 rfl).1
  · exact ((C8_non200_single_error umO1 umA1 cbFull 500 ⟨[], true⟩
      (by decide) rfl).1 rfl).2

/-- Claim C9: a final line not terminated by a newline is discarded — the
decoder's whole trace on a byte source consisting of newline-terminated
lines followed by an unterminated tail equals its trace on the source
without the tail, so a `data: ` payload on the unterminated line never
reaches onContent or the accumulator, and the end-of-input onFinish carries
only text from fully terminated lines. -/
theorem C9_unterminated_tail_discarded
    (umO : String → Option OpenAI.StreamEvent) (umA : String → Option Anthropic.StreamEvent)
    (cb : Option StreamCallbacks) (ls : List String) (t : List Char)
    (hwf : ∀ l ∈ ls, '\n' ∉ l.data) (ht : '\n' ∉ t) :
    OpenAI.processStream umO cb 200 ⟨encodeSSE ls t, false⟩ =
      OpenAI.processStream umO cb 200 ⟨encodeSSE ls [], false⟩ ∧
    Anthropic.processStream umA cb 200 ⟨encodeSSE ls t, false⟩ =
      Anthropic.processStream umA cb 200 ⟨encodeSSE ls [], false⟩ := by
  constructor
  · rw [OpenAI.processStream_ok, OpenAI.processStream_ok]
    exact OpenAI.streamLoop_drop_tail umO cb t ht ls "" hwf
  · rw [Anthropic.processStream_okA, Anthropic.processStream_okA]
    exact Anthropic.streamLoop_drop_tailA umA cb t ht ls "" hwf

/-- Witness for C9: a stream delivering `hi` on a terminated line and then
an unterminated `data: Q` line produces the same trace as the stream
without the unterminated tail: the ` there` fragment of payload `Q` is
dropped and onFinish carries only `hi`. -/
theorem C9_unterminated_tail_discarded_witness :
    OpenAI.processStream umO1 cbFull 200 ⟨encodeSSE ["data: P"] "data: Q".data, false⟩ =
      OpenAI.processStream umO1 cbFull 200 ⟨encodeSSE ["data: P"] [], false⟩ ∧
    OpenAI.processStream umO1 cbFull 200 ⟨encodeSSE ["data: P"] "data: Q".data, false⟩ =
      ⟨[CbEvent.content "hi", CbEvent.finish "hi"], false⟩ := by
  constructor
  · exact (C9_unterminated_tail_discarded umO1 umA1 cbFull ["data: P"] "data: Q".data
      (by decide) (by decide)).1
  · rfl

/-- Claim C4: when the byte source reaches end-of-input before any
terminator was observed (the preceding lines all leave the loop running),
the decoder treats this as success — onFinish is invoked with the text
accumulated so far and the final event is that finish, not an error (the
onFinish slot being present, since it is the callback the claim asserts is
invoked; its absence is the panic defect recorded against C5). -/
theorem C4_eof_is_success
    (umO : String → Option OpenAI.StreamEvent) (umA : String → Option Anthropic.StreamEvent)
    (cb : Option StreamCallbacks) (hf : hasOnFinish cb = true)
    (lsO lsA : List String) (accO accA : String) (evsO evsA : List CbEvent)
    (hwfO : ∀ l ∈ lsO, '\n' ∉ l.data) (hwfA : ∀ l ∈ lsA, '\n' ∉ l.data)
    (hrO : OpenAI.runLines umO cb "" lsO = some (accO, evsO))
    (hrA : Anthropic.runLines umA cb "" lsA = some (accA, evsA)) :
    OpenAI.processStream umO cb 200 ⟨encodeSSE lsO [], false⟩ =
      ⟨evsO ++ [CbEvent.finish accO], false⟩ ∧
    Anthropic.processStream umA cb 200 ⟨encodeSSE lsA [], false⟩ =
      ⟨evsA ++ [CbEvent.finish accA], false⟩ := by
  constructor
  · rw [OpenAI.processStream_ok]
    rw [OpenAI.streamLoop_runLines umO cb lsO "" accO evsO [] false hwfO hrO]
    simp [OpenAI.streamLoop, rawEmit, hf]
  · rw [Anthropic.processStream_okA]
    rw [Anthropic.streamLoop_runLinesA umA cb lsA "" accA evsA [] false hwfA hrA]
    simp [Anthropic.streamLoop, rawEmit, hf]

/-- Witness for C4: each provider's stream ends after one content delta with
no terminator; onFinish still receives the accumulated `hi`. -/
theorem C4_eof_is_success_witness :
    OpenAI.processStream umO1 cbFull 200 ⟨encodeSSE ["data: P"] [], false⟩ =
      ⟨[CbEvent.content "hi"] ++ [CbEvent.finish "hi"], false⟩ ∧
    Anthropic.processStream umA1 cbFull 200 ⟨encodeSSE ["data: D"] [], false⟩ =
      ⟨[CbEvent.content "hi"] ++ [CbEvent.finish "hi"], false⟩ := by
  exact C4_eof_is_success umO1 umA1 cbFull rfl ["data: P"] ["data: D"] "hi" "hi"
    [CbEvent.content "hi"] [CbEvent.content "hi"] (by decide) (by decide) rfl rfl

/-- Claim C2, counterexample to the statement as written: with a CallbackSet
whose onFinish slot is absent, the anthropic decoder observes the
message-stop event on the first line and nevertheless keeps reading — the
content delta on the following line is still delivered (and no onFinish is
ever invoked; the subsequent end-of-input panics on the nil slot). -/
theorem C2_as_stated_counterexample :
    Anthropic.processStream umA1 cbNoFinish 200
      ⟨encodeSSE ["data: S", "data: D"] [], false⟩ = ⟨[CbEvent.content "hi"], true⟩ := by
  rfl

/-- Claim C2 (amended to CallbackSets in which onFinish is present): once
the decoder observes the provider terminator — the exact `[DONE]` payload
for Shape A, recognized for every unmarshal oracle and hence without JSON
deserialization, or an event of message-stop type for Shape B — it invokes
onFinish with the accumulated text, and the resulting trace is independent
of any bytes that follow the terminator line and of how the source would
eventually end. -/
theorem C2_terminator_stops_reading
    (umO : String → Option OpenAI.StreamEvent) (umA : String → Option Anthropic.StreamEvent)
    (cb : Option StreamCallbacks) (hf : hasOnFinish cb = true)
    (lsO lsA : List String) (accO accA : String) (evsO evsA : List CbEvent)
    (hwfO : ∀ l ∈ lsO, '\n' ∉ l.data) (hwfA : ∀ l ∈ lsA, '\n' ∉ l.data)
    (hrO : OpenAI.runLines umO cb "" lsO = some (accO, evsO))
    (hrA : Anthropic.runLines umA cb "" lsA = some (accA, evsA))
    (pstop : String) (hps : cleanPayload pstop) (evS : Anthropic.StreamEvent)
    (hus : umA pstop = some evS) (hts : evS.type = Anthropic.Finish)
    (tO tA : List Char) (reO reA : Bool) :
    OpenAI.processStream umO cb 200 ⟨encodeSSE (lsO ++ ["data: [DONE]"]) tO, reO⟩ =
      ⟨evsO ++ [CbEvent.finish accO], false⟩ ∧
    Anthropic.processStream umA cb 200 ⟨encodeSSE (lsA ++ ["data: " ++ pstop]) tA, reA⟩ =
      ⟨evsA ++ [CbEvent.finish accA], false⟩ := by
  constructor
  · rw [OpenAI.processStream_ok]
    rw [encodeSSE_append lsO ["data: [DONE]"] tO]
    rw [OpenAI.streamLoop_runLines umO cb lsO "" accO evsO
      (encodeSSE ["data: [DONE]"] tO) reO hwfO hrO]
    rw [show encodeSSE ["data: [DONE]"] tO = "data: [DONE]".data ++ '\n' :: tO from rfl]
    rw [OpenAI.streamLoop_line umO cb "data: [DONE]".data (by decide) [] tO accO reO]
    simp only [List.nil_append]
    rw [OpenAI.handleLine_done umO cb accO, if_pos hf]
  · have hnl := cleanPayload_noNewline pstop hps
    rw [Anthropic.processStream_okA]
    rw [encodeSSE_append lsA ["data: " ++ pstop] tA]
    rw [Anthropic.streamLoop_runLinesA umA cb lsA "" accA evsA
      (encodeSSE ["data: " ++ pstop] tA) reA hwfA hrA]
    rw [show encodeSSE ["data: " ++ pstop] tA = ("data: " ++ pstop).data ++ '\n' :: tA from rfl]
    rw [Anthropic.streamLoop_lineA umA cb ("data: " ++ pstop).data hnl [] tA accA reA]
    simp only [List.nil_append]
    rw [Anthropic.handleLine_cleanA umA cb accA pstop hps]
    rw [Anthropic.handleData_finish umA cb accA pstop evS hus hts, if_pos hf]

/-- Witness for C2: with all callbacks present, trailing junk bytes `junk`
after the terminator line (and a read failure that would occur there) do not
appear in the trace: each provider finishes with the accumulated `hi`. -/
theorem C2_terminator_stops_reading_witness :
    OpenAI.processStream umO1 cbFull 200
      ⟨encodeSSE (["data: P"] ++ ["data: [DONE]"]) "junk".data, true⟩ =
      ⟨[CbEvent.content "hi"] ++ [CbEvent.finish "hi"], false⟩ ∧
    Anthropic.processStream umA1 cbFull 200
      ⟨encodeSSE (["data: D"] ++ ["data: " ++ "S"]) "junk".data, true⟩ =
      ⟨[CbEvent.content "hi"] ++ [CbEvent.finish "hi"], false⟩ := by
  exact C2_terminator_stops_reading umO1 umA1 cbFull rfl ["data: P"] ["data: D"]
    "hi" "hi" [CbEvent.content "hi"] [CbEvent.content "hi"] (by decide) (by decide)
    rfl rfl "S" (by decide) { type := Anthropic.Finish } rfl rfl
    "junk".data "junk".data true true

/-- Claim C3: in a stream carrying a valid content delta, then a payload the
oracle fails to deserialize, then another valid content delta, followed by
the provider terminator, onError is invoked exactly once for the malformed
payload without terminating the stream; both fragments are still delivered
via onContent in their original order and onFinish is still invoked with
their concatenation — for both providers, with all callback slots present. -/
theorem C3_malformed_payload_nonfatal
    (umO : String → Option OpenAI.StreamEvent) (umA : String → Option Anthropic.StreamEvent)
    (cb : Option StreamCallbacks)
    (hc : hasOnContent cb = true) (hf : hasOnFinish cb = true) (he : hasOnError cb = true)
    (p1 pb p2 : String) (hp1 : cleanPayload p1) (hpb : cleanPayload pb) (hp2 : cleanPayload p2)
    (hd1 : p1 ≠ "[DONE]") (hdb : pb ≠ "[DONE]") (hd2 : p2 ≠ "[DONE]")
    (s1 s2 : String) (hs1 : s1 ≠ "") (hs2 : s2 ≠ "")
    (e1 e2 : OpenAI.StreamEvent) (c1 c2 : OpenAI.Choice) (cs1 cs2 : List OpenAI.Choice)
    (hu1 : umO p1 = some e1) (hc1 : e1.choices = c1 :: cs1) (hcc1 : c1.delta.content = s1)
    (hub : umO pb = none)
    (hu2 : umO p2 = some e2) (hc2 : e2.choices = c2 :: cs2) (hcc2 : c2.delta.content = s2)
    (q1 qb q2 qs : String) (hq1 : cleanPayload q1) (hqb : cleanPayload qb)
    (hq2 : cleanPayload q2) (hqs : cleanPayload qs)
    (t1 t2 : String) (ht1 : t1 ≠ "") (ht2 : t2 ≠ "")
    (f1 f2 fs : Anthropic.StreamEvent) (dd1 dd2 : Anthropic.DeltaData)
    (hv1 : umA q1 = some f1) (htp1 : f1.type = Anthropic.Delta) (hdd1 : f1.delta = some dd1)
    (htx1 : dd1.text = t1)
    (hvb : umA qb = none)
    (hv2 : umA q2 = some f2) (htp2 : f2.type = Anthropic.Delta) (hdd2 : f2.delta = some dd2)
    (htx2 : dd2.text = t2)
    (hvs : umA qs = some fs) (htps : fs.type = Anthropic.Finish) :
    OpenAI.processStream umO cb 200
      ⟨encodeSSE ["data: " ++ p1, "data: " ++ pb, "data: " ++ p2, "data: [DONE]"] [], false⟩ =
      ⟨[CbEvent.content s1, CbEvent.error .parseFailed, CbEvent.content s2,
        CbEvent.finish (s1 ++ s2)], false⟩ ∧
    Anthropic.processStream umA cb 200
      ⟨encodeSSE ["data: " ++ q1, "data: " ++ qb, "data: " ++ q2, "data: " ++ qs] [], false⟩ =
      ⟨[CbEvent.content t1, CbEvent.error .parseFailed, CbEvent.content t2,
        CbEvent.finish (t1 ++ t2)], false⟩ := by
  constructor
  · have hl1 : OpenAI.handleLine umO cb "" (("data: " ++ p1).data ++ ['\n']) =
        .next s1 [.content s1] := by
      rw [OpenAI.handleLine_clean umO cb "" p1 hp1,
          OpenAI.handleData_delta umO cb "" p1 s1 e1 c1 cs1 hd1 hu1 hc1 hcc1 hs1,
          if_pos hc, strEmptyAppend]
    have hlb : OpenAI.handleLine umO cb s1 (("data: " ++ pb).data ++ ['\n']) =
        .next s1 [.error .parseFailed] := by
      rw [OpenAI.handleLine_clean umO cb s1 pb hpb,
          OpenAI.handleData_parse_error umO cb s1 pb hdb hub, if_pos he]
    have hl2 : OpenAI.handleLine umO cb s1 (("data: " ++ p2).data ++ ['\n']) =
        .next (s1 ++ s2) [.content s2] := by
      rw [OpenAI.handleLine_clean umO cb s1 p2 hp2,
          OpenAI.handleData_delta umO cb s1 p2 s2 e2 c2 cs2 hd2 hu2 hc2 hcc2 hs2,
          if_pos hc]
    have r2 := OpenAI.runLines_cons_next umO cb s1 (s1 ++ s2) (s1 ++ s2)
      ("data: " ++ p2) [] [CbEvent.content s2] [] hl2 (OpenAI.runLines_nil umO cb (s1 ++ s2))
    have rb := OpenAI.runLines_cons_next umO cb s1 s1 (s1 ++ s2)
      ("data: " ++ pb) ["data: " ++ p2] [CbEvent.error .parseFailed]
      ([CbEvent.content s2] ++ []) hlb r2
    have r1 := OpenAI.runLines_cons_next umO cb "" s1 (s1 ++ s2)
      ("data: " ++ p1) ["data: " ++ pb, "data: " ++ p2] [CbEvent.content s1]
      ([CbEvent.error .parseFailed] ++ ([CbEvent.content s2] ++ [])) hl1 rb
    have hwfls : ∀ l ∈ ["data: " ++ p1, "data: " ++ pb, "data: " ++ p2], '\n' ∉ l.data := by
      intro l hl
      simp only [List.mem_cons, List.not_mem_nil, or_false] at hl
      rcases hl with rfl | rfl | rfl
      · exact cleanPayload_noNewline p1 hp1
      · exact cleanPayload_noNewline pb hpb
      · exact cleanPayload_noNewline p2 hp2
    rw [OpenAI.processStream_ok]
    rw [show (["data: " ++ p1, "data: " ++ pb, "data: " ++ p2, "data: [DONE]"] : List String) =
        ["data: " ++ p1, "data: " ++ pb, "data: " ++ p2] ++ ["data: [DONE]"] from rfl]
    rw [encodeSSE_append]
    rw [OpenAI.streamLoop_runLines umO cb ["data: " ++ p1, "data: " ++ pb, "data: " ++ p2]
      "" (s1 ++ s2) _ _ false hwfls r1]
    rw [show encodeSSE ["data: [DONE]"] [] = "data: [DONE]".data ++ '\n' :: [] from rfl]
    rw [OpenAI.streamLoop_line umO cb "data: [DONE]".data (by decide) [] [] (s1 ++ s2) false]
    simp only [List.nil_append]
    rw [OpenAI.handleLine_done umO cb (s1 ++ s2), if_pos hf]
    simp
  · have hl1 : Anthropic.handleLine umA cb "" (("data: " ++ q1).data ++ ['\n']) =
        .next t1 [.content t1] := by
      rw [Anthropic.handleLine_cleanA umA cb "" q1 hq1,
          Anthropic.handleData_deltaA umA cb "" q1 t1 f1 dd1 hv1 htp1 hdd1 htx1 ht1,
          if_pos hc, strEmptyAppend]
    have hlb : Anthropic.handleLine umA cb t1 (("data: " ++ qb).data ++ ['\n']) =
        .next t1 [.error .parseFailed] := by
      rw [Anthropic.handleLine_cleanA umA cb t1 qb hqb,
          Anthropic.handleData_parse_errorA umA cb t1 qb hvb, if_pos he]
    have hl2 : Anthropic.handleLine umA cb t1 (("data: " ++ q2).data ++ ['\n']) =
        .next (t1 ++ t2) [.content t2] := by
      rw [Anthropic.handleLine_cleanA umA cb t1 q2 hq2,
          Anthropic.handleData_deltaA umA cb t1 q2 t2 f2 dd2 hv2 htp2 hdd2 htx2 ht2,
          if_pos hc]
    have r2 := Anthropic.runLines_cons_nextA umA cb t1 (t1 ++ t2) (t1 ++ t2)
      ("data: " ++ q2) [] [CbEvent.content t2] [] hl2 (Anthropic.runLines_nilA umA cb (t1 ++ t2))
    have rb := Anthropic.runLines_cons_nextA umA cb t1 t1 (t1 ++ t2)
      ("data: " ++ qb) ["data: " ++ q2] [CbEvent.error .parseFailed]
      ([CbEvent.content t2] ++ []) hlb r2
    have r1 := Anthropic.runLines_cons_nextA umA cb "" t1 (t1 ++ t2)
      ("data: " ++ q1) ["data: " ++ qb, "data: " ++ q2] [CbEvent.content t1]
      ([CbEvent.error .parseFailed] ++ ([CbEvent.content t2] ++ [])) hl1 rb
    have hwfls : ∀ l ∈ ["data: " ++ q1, "data: " ++ qb, "data: " ++ q2], '\n' ∉ l.data := by
      intro l hl
      simp only [List.mem_cons, List.not_mem_nil, or_false] at hl
      rcases hl with rfl | rfl | rfl
      · exact cleanPayload_noNewline q1 hq1
      · exact cleanPayload_noNewline qb hqb
      · exact cleanPayload_noNewline q2 hq2
    rw [Anthropic.processStream_okA]
    rw [show (["data: " ++ q1, "data: " ++ qb, "data: " ++ q2, "data: " ++ qs] : List String) =
        ["data: " ++ q1, "data: " ++ qb, "data: " ++ q2] ++ ["data: " ++ qs] from rfl]
    rw [encodeSSE_append]
    rw [Anthropic.streamLoop_runLinesA umA cb ["data: " ++ q1, "data: " ++ qb, "data: " ++ q2]
      "" (t1 ++ t2) _ _ false hwfls r1]
    rw [show encodeSSE ["data: " ++ qs] [] = ("data: " ++ qs).data ++ '\n' :: [] from rfl]
    rw [Anthropic.streamLoop_lineA umA cb ("data: " ++ qs).data
      (cleanPayload_noNewline qs hqs) [] [] (t1 ++ t2) false]
    simp only [List.nil_append]
    rw [Anthropic.handleLine_cleanA umA cb (t1 ++ t2) qs hqs]
    rw [Anthropic.handleData_finish umA cb (t1 ++ t2) qs fs hvs htps, if_pos hf]
    simp

/-- Witness for C3: payload `X` fails to deserialize between the deltas
`hi` and ` there` of each provider's concrete stream; the trace is content,
error, content, finish `hi there`. -/
theorem C3_malformed_payload_nonfatal_witness :
    OpenAI.processStream umO1 cbFull 200
      ⟨encodeSSE ["data: P", "data: X", "data: Q", "data: [DONE]"] [], false⟩ =
      ⟨[CbEvent.content "hi", CbEvent.error .parseFailed, CbEvent.content " there",
        CbEvent.finish ("hi" ++ " there")], false⟩ ∧
    Anthropic.processStream umA1 cbFull 200
      ⟨encodeSSE ["data: D", "data: X", "data: E", "data: S"] [], false⟩ =
      ⟨[CbEvent.content "hi", CbEvent.error .parseFailed, CbEvent.content " there",
        CbEvent.finish ("hi" ++ " there")], false⟩ := by
  have h3 := C3_malformed_payload_nonfatal umO1 umA1 cbFull rfl rfl rfl
    "P" "X" "Q" (by decide) (by decide) (by decide) (by decide) (by decide) (by decide)
    "hi" " there" (by decide) (by decide)
    { choices := [{ delta := { content := "hi" } }] }
    { choices := [{ delta := { content := " there" } }] }
    { delta := { content := "hi" } } { delta := { content := " there" } } [] []
    rfl rfl rfl rfl rfl rfl rfl
    "D" "X" "E" "S" (by decide) (by decide) (by decide) (by decide)
    "hi" " there" (by decide) (by decide)
    { type := Anthropic.Delta, delta := some { type := "text_delta", text := "hi" } }
    { type := Anthropic.Delta, delta := some { type := "text_delta", text := " there" } }
    { type := Anthropic.Finish }
    { type := "text_delta", text := "hi" } { type := "text_delta", text := " there" }
    rfl rfl rfl rfl rfl rfl rfl rfl rfl rfl rfl
  exact h3
